import Mathlib

set_option maxHeartbeats 1000000

/-! Shallow embedding of the turn-coordination core of the voice-agent
repository: the stage clock (`LatencyTracker`), the emotion-response parsing
and synthesis dispatch inside `EmotionalVoiceAssistant.tts_node`, the voice
preset resolution, and the filler-sound race (`FillerSoundManager`).
Text is modelled as `List Char`; timestamps as `Rat`. -/

abbrev Str := List Char

/-- First-match association-list lookup (Python `dict` access for the
no-duplicate-key dictionaries built from the JSON config files). -/
def alGet {κ α : Type} [DecidableEq κ] : List (κ × α) → κ → Option α
  | [], _ => none
  | (k', v) :: rest, k => if k' = k then some v else alGet rest k

/-- In-place association-list update, appending when the key is new
(Python `dict` assignment keeps insertion order, overwrite keeps position). -/
def alSet {κ α : Type} [DecidableEq κ] : List (κ × α) → κ → α → List (κ × α)
  | [], k, v => [(k, v)]
  | (k', v') :: rest, k, v =>
    if k' = k then (k, v) :: rest else (k', v') :: alSet rest k v

/-- Characters stripped by Python `str.strip()` with no arguments
(ASCII whitespace; the inputs of interest are ASCII). -/
def pyIsSpace (c : Char) : Bool :=
  c = ' ' || c = '\t' || c = '\n' || c = '\r' || c = '\x0b' || c = '\x0c'

def pyLStrip (s : Str) : Str := s.dropWhile pyIsSpace

def pyRStrip (s : Str) : Str := (s.reverse.dropWhile pyIsSpace).reverse

/-- Python `str.strip()`. -/
def pyStrip (s : Str) : Str := pyLStrip (pyRStrip s)

/-- Python `s.startswith(pre)`. -/
def lStartsWith : Str → Str → Bool
  | [], _ => true
  | _ :: _, [] => false
  | p :: ps, c :: cs => if p = c then lStartsWith ps cs else false

/-- Python `s.endswith(suf)`. -/
def lEndsWith (suf s : Str) : Bool := lStartsWith suf.reverse s.reverse

/-- Python `s[n:]`. -/
def lDropHead (n : Nat) (s : Str) : Str := s.drop n

/-- Python `s[:-n]`. -/
def lDropLast (n : Nat) (s : Str) : Str := (s.reverse.drop n).reverse

/-- JSON values as produced by Python `json.loads` (numbers as rationals;
the float literals NaN/Infinity have no rational value and are not modelled). -/
inductive Json where
  | null : Json
  | bool : Bool → Json
  | num : Rat → Json
  | str : Str → Json
  | arr : List Json → Json
  | obj : List (Str × Json) → Json

/-- Python `dict.get` on a decoded JSON object: with duplicate keys the last
occurrence wins, as in `json.loads`. -/
def objGet (fields : List (Str × Json)) (k : Str) : Option Json :=
  alGet fields.reverse k

/-- JSON whitespace (the characters `json.loads` skips between tokens). -/
def jsonWs (c : Char) : Bool := c = ' ' || c = '\t' || c = '\n' || c = '\r'

def skipWs (s : Str) : Str := s.dropWhile jsonWs

def digitsToNat (ds : Str) : Nat := ds.foldl (fun n c => n * 10 + (c.toNat - 48)) 0

/-- Leading JSON integer-part digit run (a single `0`, or a nonzero digit
followed by digits). -/
def parseIntDigits : Str → Option (Str × Str)
  | [] => none
  | c :: rest =>
    if c = '0' then some ([c], rest)
    else if c.isDigit then
      some (c :: rest.takeWhile Char.isDigit, rest.dropWhile Char.isDigit)
    else none

/-- Optional JSON fraction part; a bare `.` with no digit is a syntax error. -/
def parseFrac : Str → Option (Str × Str)
  | '.' :: r =>
    let fs := r.takeWhile Char.isDigit
    if fs.isEmpty then none else some (fs, r.dropWhile Char.isDigit)
  | s => some ([], s)

/-- Optional JSON exponent part: sign flag, digits, rest. -/
def parseExp : Str → Option (Bool × Str × Str)
  | [] => some (false, [], [])
  | c :: r =>
    if c = 'e' || c = 'E' then
      let (negE, r1) :=
        match r with
        | '-' :: rr => (true, rr)
        | '+' :: rr => (false, rr)
        | _ => (false, r)
      let ds := r1.takeWhile Char.isDigit
      if ds.isEmpty then none else some (negE, ds, r1.dropWhile Char.isDigit)
    else some (false, [], c :: r)

def parseNumber (s : Str) : Option (Rat × Str) :=
  let (neg, s1) :=
    match s with
    | '-' :: r => (true, r)
    | _ => (false, s)
  match parseIntDigits s1 with
  | none => none
  | some (ids, s2) =>
    match parseFrac s2 with
    | none => none
    | some (fds, s3) =>
      match parseExp s3 with
      | none => none
      | some (negE, eds, s4) =>
        let mantissa : Nat := digitsToNat (ids ++ fds)
        let e : Nat := digitsToNat eds
        let signed : Int := if neg then -(mantissa : Int) else (mantissa : Int)
        let q : Rat :=
          if negE then mkRat signed (10 ^ (fds.length + e))
          else mkRat (signed * (10 : Int) ^ e) (10 ^ fds.length)
        some (q, s4)

def hexVal (c : Char) : Option Nat :=
  if c.isDigit then some (c.toNat - 48)
  else if 'a' ≤ c && c ≤ 'f' then some (c.toNat - 87)
  else if 'A' ≤ c && c ≤ 'F' then some (c.toNat - 55)
  else none

/-- Body of a JSON string literal after the opening quote, with the standard
escapes (`\uXXXX` decoded as a single code point; surrogate pairing is not
modelled — no input of interest uses it). -/
def parseStringBody : Nat → Str → Option (Str × Str)
  | 0, _ => none
  | _, [] => none
  | f + 1, c :: rest =>
    if c = '"' then some ([], rest)
    else if c = '\\' then
      match rest with
      | [] => none
      | e :: rest2 =>
        let esc : Option (Char × Str) :=
          if e = '"' then some ('"', rest2)
          else if e = '\\' then some ('\\', rest2)
          else if e = '/' then some ('/', rest2)
          else if e = 'b' then some ('\x08', rest2)
          else if e = 'f' then some ('\x0c', rest2)
          else if e = 'n' then some ('\n', rest2)
          else if e = 'r' then some ('\r', rest2)
          else if e = 't' then some ('\t', rest2)
          else if e = 'u' then
            match rest2 with
            | h1 :: h2 :: h3 :: h4 :: rest3 =>
              match hexVal h1, hexVal h2, hexVal h3, hexVal h4 with
              | some a, some b, some cc, some d =>
                some (Char.ofNat (((a * 16 + b) * 16 + cc) * 16 + d), rest3)
              | _, _, _, _ => none
            | _ => none
          else none
        match esc with
        | some (ch, r) =>
          match parseStringBody f r with
          | some (cs, rr) => some (ch :: cs, rr)
          | none => none
        | none => none
    else if c.toNat < 32 then none
    else
      match parseStringBody f rest with
      | some (cs, rr) => some (c :: cs, rr)
      | none => none

mutual

/-- Fueled recursive-descent parser for one JSON value, mirroring the
grammar accepted by Python `json.loads`. -/
def parseValue : Nat → Str → Option (Json × Str)
  | 0, _ => none
  | f + 1, s =>
    match s with
    | [] => none
    | '{' :: rest => parseObjBody f (skipWs rest) true []
    | '[' :: rest => parseArrBody f (skipWs rest) true []
    | '"' :: rest =>
      match parseStringBody (rest.length + 1) rest with
      | some (cs, r) => some (Json.str cs, r)
      | none => none
    | 't' :: 'r' :: 'u' :: 'e' :: r => some (Json.bool true, r)
    | 'f' :: 'a' :: 'l' :: 's' :: 'e' :: r => some (Json.bool false, r)
    | 'n' :: 'u' :: 'l' :: 'l' :: r => some (Json.null, r)
    | s' =>
      match parseNumber s' with
      | some (q, r) => some (Json.num q, r)
      | none => none

/-- Object members after `{` (whitespace already skipped); `first` tracks
whether `}` may close immediately (empty object, no trailing comma). -/
def parseObjBody : Nat → Str → Bool → List (Str × Json) → Option (Json × Str)
  | 0, _, _, _ => none
  | f + 1, s, first, acc =>
    match s with
    | '}' :: r => if first then some (Json.obj acc, r) else none
    | '"' :: rest =>
      match parseStringBody (rest.length + 1) rest with
      | none => none
      | some (k, r1) =>
        match skipWs r1 with
        | ':' :: r2 =>
          match parseValue f (skipWs r2) with
          | none => none
          | some (v, r3) =>
            match skipWs r3 with
            | ',' :: r4 => parseObjBody f (skipWs r4) false (acc ++ [(k, v)])
            | '}' :: r4 => some (Json.obj (acc ++ [(k, v)]), r4)
            | _ => none
        | _ => none
    | _ => none

/-- Array elements after `[` (whitespace already skipped). -/
def parseArrBody : Nat → Str → Bool → List Json → Option (Json × Str)
  | 0, _, _, _ => none
  | f + 1, s, first, acc =>
    match s with
    | ']' :: r => if first then some (Json.arr acc, r) else none
    | s' =>
      match parseValue f s' with
      | none => none
      | some (v, r1) =>
        match skipWs r1 with
        | ',' :: r2 => parseArrBody f (skipWs r2) false (acc ++ [v])
        | ']' :: r2 => some (Json.arr (acc ++ [v]), r2)
        | _ => none

end

/-- Python `json.loads`: parse one value and require only whitespace after it.
The fuel `s.length + 1` dominates the recursion depth, which consumes at
least one character per level. -/
def jsonParse (s : Str) : Option Json :=
  match parseValue (s.length + 1) (skipWs s) with
  | some (v, rest) => if skipWs rest = [] then some v else none
  | none => none

def backtick3 : Str := ['`', '`', '`']

def fenceJsonOpen : Str := ['`', '`', '`', 'j', 's', 'o', 'n']

/-- Fence stripping in `tts_node` (agent.py lines 173-180): trim, strip a
leading markdown fence opener (only the exact tags ` ```json ` and ` ``` `),
strip a trailing ` ``` `, re-trim. -/
def stripFence (fullText : Str) : Str :=
  let t0 := pyStrip fullText
  let t1 := if lStartsWith fenceJsonOpen t0 then lDropHead 7 t0 else t0
  let t2 := if lStartsWith backtick3 t1 then lDropHead 3 t1 else t1
  let t3 := if lEndsWith backtick3 t2 then lDropLast 3 t2 else t2
  pyStrip t3

def emotionS : Str := ['e', 'm', 'o', 't', 'i', 'o', 'n']

def intensityS : Str := ['i', 'n', 't', 'e', 'n', 's', 'i', 't', 'y']

def messageS : Str := ['m', 'e', 's', 's', 'a', 'g', 'e']

def neutralS : Str := ['n', 'e', 'u', 't', 'r', 'a', 'l']

/-- The decode-and-default step of `tts_node` (agent.py lines 182-186): fence
stripping, `json.loads`, then `response_data.get` with defaults `"neutral"`,
`0.5`, and the original full text. `none` means this step was not completed:
either `json.loads` raised (the `except` branch runs) or the decoded value is
not a dict (`.get` raises `AttributeError`). -/
def parseEmotionResponse (fullText : Str) : Option (Json × Json × Json) :=
  match jsonParse (stripFence fullText) with
  | some (Json.obj fields) =>
    some ((objGet fields emotionS).getD (Json.str neutralS),
          (objGet fields intensityS).getD (Json.num (mkRat 1 2)),
          (objGet fields messageS).getD (Json.str fullText))
  | _ => none

/-- The `LatencyTracker.timestamps` dict: event name to absolute time. -/
abbrev Timeline := List (String × Rat)

/-- `LatencyTracker.mark`: record `now` under the event, return it
(agent.py lines 33-37). -/
def markEvent (tl : Timeline) (event : String) (now : Rat) : Timeline × Rat :=
  (alSet tl event now, now)

/-- `LatencyTracker.get_duration` (agent.py lines 39-43): `0.0` when either
mark is absent, else `(end - start) * 1000`. -/
def get_duration (tl : Timeline) (start_event end_event : String) : Rat :=
  match alGet tl start_event, alGet tl end_event with
  | some ts, some te => (te - ts) * 1000
  | _, _ => 0

/-- One conditional block of `log_latency`: emit the named duration only when
both endpoint marks are present. -/
def reportEntry (tl : Timeline) (label : String) (a b : String) : List (String × Rat) :=
  if (alGet tl a).isSome && (alGet tl b).isSome then [(label, get_duration tl a b)] else []

/-- `LatencyTracker.log_latency` (agent.py lines 45-97): a no-op on an empty
timeline; otherwise logs each stage duration whose endpoints are both marked,
then clears the timeline. Returns the new timeline and the logged report. -/
def log_latency (tl : Timeline) : Timeline × Option (List (String × Rat)) :=
  if tl.isEmpty then (tl, none)
  else
    ([], some (reportEntry tl "vad_to_stt" "user_speech_end" "stt_finalized" ++
               reportEntry tl "stt_to_llm" "stt_finalized" "llm_start" ++
               reportEntry tl "llm_ttft" "llm_start" "llm_first_token" ++
               reportEntry tl "llm_total" "llm_start" "llm_complete" ++
               reportEntry tl "llm_to_tts" "llm_complete" "tts_start" ++
               reportEntry tl "tts_ttfc" "tts_start" "tts_first_chunk" ++
               reportEntry tl "tts_total" "tts_start" "tts_complete" ++
               reportEntry tl "total_latency" "user_speech_end" "tts_first_chunk"))

/-- One entry of a filler category in `filler_sounds_config.json`. -/
structure FillerEntry where
  text : Str
deriving DecidableEq

/-- The configuration-derived fields of `FillerSoundManager`: the fillers
catalog and the mutable `current_emotion` (initialized `"neutral"`). -/
structure FillerMgr where
  fillers : List (Str × List FillerEntry)
  currentEmotion : Str
deriving DecidableEq

def initFillerMgr (cfg : List (Str × List FillerEntry)) : FillerMgr :=
  { fillers := cfg, currentEmotion := neutralS }

/-- `FillerSoundManager.set_emotion` (filler_manager.py lines 38-45): store
the label only when it is a key of the fillers catalog. -/
def set_emotion (m : FillerMgr) (emotion : Str) : FillerMgr :=
  if (alGet m.fillers emotion).isSome then { m with currentEmotion := emotion } else m

/-- Python `str(n)` for the 1-based filler index. -/
def natStr (n : Nat) : Str := Nat.toDigits 10 n

/-- `filler["text"].replace(" ", "_")`. -/
def underscoreSpaces (s : Str) : Str := s.map (fun c => if c = ' ' then '_' else c)

def wavSuffix : Str := ['.', 'w', 'a', 'v']

/-- `FillerSoundManager.get_random_filler_path` (filler_manager.py lines
47-65), with the `random.randint(1, len(fillers))` draw passed in as `r`.
Returns the constructed file name (the directory prefix is constant), or
`none` where Python raises: a missing `"neutral"` catalog entry (`KeyError`)
or an out-of-range index (empty category, `ValueError`). An empty-string
argument is falsy, so `emotion or self.current_emotion` falls back. -/
def get_random_filler_path (m : FillerMgr) (emotionArg : Option Str) (r : Nat) :
    Option Str :=
  let emotion :=
    match emotionArg with
    | some e => if e = [] then m.currentEmotion else e
    | none => m.currentEmotion
  match alGet m.fillers neutralS with
  | none => none
  | some neutralFillers =>
    let fillers := (alGet m.fillers emotion).getD neutralFillers
    match fillers.get? (r - 1) with
    | none => none
    | some entry =>
      some (emotion ++ ['_'] ++ natStr r ++ ['_'] ++ underscoreSpaces entry.text ++ wavSuffix)

/-- The on-disk asset file names of one catalog category, as produced by
generate_filler_sounds.py (`f"{emotion}_{idx+1}_{text.replace(' ', '_')}.wav"`). -/
def categoryAssetNames (category : Str) (entries : List FillerEntry) : List Str :=
  (List.range entries.length).map
    (fun i => category ++ ['_'] ++ natStr (i + 1) ++ ['_'] ++
      underscoreSpaces ((entries.get? i).map FillerEntry.text |>.getD []) ++ wavSuffix)

/-- Status of one spawned `trigger_filler_on_delay` asyncio task.
`sleeping`: suspended in `asyncio.sleep` (race Armed). `capturing`: suspended
in `audio_source.capture_frame` inside `play_filler_sound` (race Playing).
`finished`: the coroutine returned (playback completed, playback failed and
was swallowed, or the `is_playing` guard skipped playback). `cancelled`:
`Task.cancel()` delivered `CancelledError` at the suspension point before the
coroutine could finish. -/
inductive TaskStatus where
  | sleeping : TaskStatus
  | capturing : TaskStatus
  | finished : TaskStatus
  | cancelled : TaskStatus
deriving DecidableEq

/-- `Task.done()`. -/
def taskDone : TaskStatus → Bool
  | TaskStatus.finished => true
  | TaskStatus.cancelled => true
  | _ => false

/-- The filler-race state of one `FillerSoundManager`: every task spawned so
far (index = spawn order), the `playback_task` reference, and `is_playing`. -/
structure SchedState where
  tasks : List TaskStatus
  current : Option Nat
  isPlaying : Bool
deriving DecidableEq

def getTask (ts : List TaskStatus) (i : Nat) : TaskStatus :=
  (ts.get? i).getD TaskStatus.finished

def initSched : SchedState := { tasks := [], current := none, isPlaying := false }

/-- `self.playback_task.cancel()` on a not-done task: `CancelledError` is
raised at the task's current suspension point. A task cancelled while
suspended in `capture_frame` runs `play_filler_sound`'s `finally` (clearing
`is_playing`); `except asyncio.CancelledError: pass` then ends the coroutine.
A task cancelled while sleeping never starts playback. -/
def cancelCurrent (s : SchedState) : SchedState :=
  match s.current with
  | none => s
  | some i =>
    if taskDone (getTask s.tasks i) then s
    else
      { s with
        tasks := s.tasks.set i TaskStatus.cancelled,
        isPlaying := if getTask s.tasks i = TaskStatus.capturing then false else s.isPlaying }

/-- `FillerSoundManager.cancel_filler` (filler_manager.py lines 159-163):
cancel the task if one exists and is not done, then drop the reference. -/
def cancel_filler (s : SchedState) : SchedState :=
  match s.current with
  | none => s
  | some i =>
    if taskDone (getTask s.tasks i) then s
    else { cancelCurrent s with current := none }

/-- `FillerSoundManager.start_filler_timer` (filler_manager.py lines
137-157): cancel a previous not-done task, then spawn a fresh timer task and
store it in `playback_task`. -/
def start_filler_timer (s : SchedState) : SchedState :=
  let s' := cancelCurrent s
  { s' with tasks := s'.tasks ++ [TaskStatus.sleeping], current := some s'.tasks.length }

/-- Environment steps of the race: the manager's operations plus the
scheduler delivering a timer expiry (`fire`: `asyncio.sleep` returns, and
`play_filler_sound` either reaches `capture_frame` or returns early/fails —
`fireFail`), and a capture completing or erroring out (`capDone`, which runs
the `finally` clearing `is_playing`). -/
inductive SchedOp where
  | start : SchedOp
  | cancel : SchedOp
  | fire : Nat → SchedOp
  | fireFail : Nat → SchedOp
  | capDone : Nat → SchedOp
deriving DecidableEq

def schedStep (s : SchedState) : SchedOp → SchedState
  | SchedOp.start => start_filler_timer s
  | SchedOp.cancel => cancel_filler s
  | SchedOp.fire i =>
    if getTask s.tasks i = TaskStatus.sleeping then
      if s.isPlaying then { s with tasks := s.tasks.set i TaskStatus.finished }
      else { s with tasks := s.tasks.set i TaskStatus.capturing, isPlaying := true }
    else s
  | SchedOp.fireFail i =>
    if getTask s.tasks i = TaskStatus.sleeping then
      { s with tasks := s.tasks.set i TaskStatus.finished }
    else s
  | SchedOp.capDone i =>
    if getTask s.tasks i = TaskStatus.capturing then
      { s with tasks := s.tasks.set i TaskStatus.finished, isPlaying := false }
    else s

def schedRun (ops : List SchedOp) : SchedState := ops.foldl schedStep initSched

/-- A race that is Armed (timer pending) or Playing (clip emission in
flight). -/
def raceActive (s : SchedState) (i : Nat) : Bool := !taskDone (getTask s.tasks i)

/-- Python exceptions that can escape or be caught inside `tts_node`:
`KeyError` (caught by the `except` clause), `TypeError` (unhashable dict
key), `AttributeError` (`.get` on a non-dict), and an error raised by the
wrapped synthesis stream. -/
inductive PyErr where
  | keyError : PyErr
  | typeError : PyErr
  | attributeError : PyErr
  | synthError : PyErr
deriving DecidableEq

/-- Using a decoded JSON value as a key of a str-keyed Python dict: a str
hits or misses by its content, other hashable values (bool/num/null) always
miss, and unhashable values (list/dict) raise `TypeError`. -/
def jsonHashKey : Json → Except PyErr (Option Str)
  | Json.str s => Except.ok (some s)
  | Json.arr _ => Except.error PyErr.typeError
  | Json.obj _ => Except.error PyErr.typeError
  | _ => Except.ok none

/-- `set_emotion` as called from `tts_node` with the decoded (arbitrary JSON)
emotion value: `emotion in self.fillers_config` then conditional store. -/
def set_emotionJ (m : FillerMgr) (e : Json) : Except PyErr FillerMgr :=
  match jsonHashKey e with
  | Except.error er => Except.error er
  | Except.ok none => Except.ok m
  | Except.ok (some s) => Except.ok (set_emotion m s)

/-- agent.py line 196:
`self.emotion_config["emotions"].get(emotion, self.emotion_config["emotions"]["neutral"])`.
Python evaluates the default argument first, so a missing `"neutral"` preset
raises `KeyError` even when `emotion` is present. -/
def lookupEmotionSettings (tbl : List (Str × List (Str × Json))) (e : Json) :
    Except PyErr (List (Str × Json)) :=
  match alGet tbl neutralS with
  | none => Except.error PyErr.keyError
  | some nv =>
    match jsonHashKey e with
    | Except.error er => Except.error er
    | Except.ok none => Except.ok nv
    | Except.ok (some s) => Except.ok ((alGet tbl s).getD nv)

def speedS : Str := ['s', 'p', 'e', 'e', 'd']

/-- agent.py lines 202-205: build `voice_controls` from
`emotion_settings["speed"]` and `emotion_settings["emotion"]`; a missing key
raises `KeyError` (caught by the `except` clause). -/
def buildVoiceControls (settings : List (Str × Json)) : Except PyErr (Json × Json) :=
  match alGet settings speedS with
  | none => Except.error PyErr.keyError
  | some sp =>
    match alGet settings emotionS with
    | none => Except.error PyErr.keyError
    | some em => Except.ok (sp, em)

/-- The `EmotionalVoiceAssistant` fields `tts_node` reads or writes, plus the
loaded `emotion_config["emotions"]` table and whether the session's TTS is a
`cartesia.TTS` (it is, in `entrypoint`). -/
structure AgentState where
  lastEmotion : Json
  filler : Option FillerMgr
  isCartesia : Bool
  emotionsTable : List (Str × List (Str × Json))

/-- Observable outcome of one `tts_node` call: final agent state, latency
timeline, remaining clock, the emitted latency report (`none` when
`log_latency` did not run or found an empty timeline), whether `log_latency`
ran at all, the text handed to the synthesis stream, the
`experimental_voice_controls` update if any, the audio chunks yielded, and
the exception that escaped, if any. -/
structure TurnResult where
  state : AgentState
  tracker : Timeline
  clock : List Rat
  report : Option (List (String × Rat))
  reportRan : Bool
  spoken : Option Json
  voiceUpdate : Option (Json × Json)
  chunks : Nat
  err : Option PyErr

/-- A `latency_tracker.mark` call inside `tts_node`, consuming the next
instant from the clock. -/
def markT (tl : Timeline) (ck : List Rat) (event : String) : Timeline × List Rat :=
  (alSet tl event (ck.headD 0), ck.tail)

/-- An exception escaping `tts_node` before the synthesis loop:
`log_latency` is never reached. -/
def abortResult (st : AgentState) (tl : Timeline) (ck : List Rat)
    (vu : Option (Json × Json)) (e : PyErr) : TurnResult :=
  { state := st, tracker := tl, clock := ck, report := none, reportRan := false,
    spoken := none, voiceUpdate := vu, chunks := 0, err := some e }

/-- The synthesis loop of `tts_node` (both branches, agent.py lines 213-221
and 229-238): iterate `Agent.default.tts_node`, mark `tts_first_chunk` on the
first chunk, and only when the stream finishes normally mark `tts_complete`
and run `log_latency`. A stream error propagates out of the generator with
neither of those. The external stream's behavior is the parameter `synth`:
chunks yielded before it completes (`true`) or errors (`false`). -/
def runSynthesis (st : AgentState) (tl : Timeline) (ck : List Rat)
    (vu : Option (Json × Json)) (text : Json) (synth : Json → Nat × Bool) : TurnResult :=
  let fc := if 1 ≤ (synth text).1 then markT tl ck "tts_first_chunk" else (tl, ck)
  if (synth text).2 then
    let done := markT fc.1 fc.2 "tts_complete"
    let logged := log_latency done.1
    { state := st, tracker := logged.1, clock := done.2, report := logged.2, reportRan := true,
      spoken := some text, voiceUpdate := vu, chunks := (synth text).1, err := none }
  else
    { state := st, tracker := fc.1, clock := fc.2, report := none, reportRan := false,
      spoken := some text, voiceUpdate := vu, chunks := (synth text).1, err := some PyErr.synthError }

/-- The `except (json.JSONDecodeError, KeyError)` branch (agent.py lines
223-238): speak the original accumulated text; no emotion handling. -/
def fallbackPath (st : AgentState) (tl : Timeline) (ck : List Rat)
    (fullText : Str) (synth : Json → Nat × Bool) : TurnResult :=
  runSynthesis st tl ck none (Json.str fullText) synth

/-- agent.py lines 195-221, after the emotion bookkeeping: look up the
Cartesia settings (a `KeyError` jumps to the fallback branch), build and
apply the voice controls when the TTS is Cartesia, then synthesize the
message. -/
def afterEmotion (st : AgentState) (tl : Timeline) (ck : List Rat)
    (fullText : Str) (message emotion : Json) (synth : Json → Nat × Bool) : TurnResult :=
  match lookupEmotionSettings st.emotionsTable emotion with
  | Except.error PyErr.keyError => fallbackPath st tl ck fullText synth
  | Except.error e => abortResult st tl ck none e
  | Except.ok settings =>
    if st.isCartesia then
      match buildVoiceControls settings with
      | Except.error PyErr.keyError => fallbackPath st tl ck fullText synth
      | Except.error e => abortResult st tl ck none e
      | Except.ok vc => runSynthesis st tl ck (some vc) message synth
    else runSynthesis st tl ck none message synth

/-- The `try` branch of `tts_node` applied to a successfully decoded dict
(agent.py lines 184-221): extract the three fields with their defaults,
record `last_emotion`, forward the emotion to the filler manager, then
continue with settings lookup and synthesis. The source also extracts
`intensity` (line 185) but uses it only in a log line, so it contributes no
modelled effect. -/
def processParsed (st0 : AgentState) (tl : Timeline) (ck : List Rat)
    (fullText : Str) (synth : Json → Nat × Bool) (fields : List (Str × Json)) : TurnResult :=
  let emotion := (objGet fields emotionS).getD (Json.str neutralS)
  let message := (objGet fields messageS).getD (Json.str fullText)
  let st := { st0 with lastEmotion := emotion }
  match st.filler with
  | some fm =>
    match set_emotionJ fm emotion with
    | Except.error e => abortResult st tl ck none e
    | Except.ok fm' =>
      afterEmotion { st with filler := some fm' } tl ck fullText message emotion synth
  | none => afterEmotion st tl ck fullText message emotion synth

/-- `EmotionalVoiceAssistant.tts_node` (agent.py lines 159-238) on the fully
accumulated response text: mark `tts_start`, strip fences, decode, and
dispatch to the parsed or fallback branch. A decoded non-dict raises
`AttributeError` at `response_data.get` (not caught). -/
def tts_nodeM (st : AgentState) (tl : Timeline) (ck : List Rat)
    (fullText : Str) (synth : Json → Nat × Bool) : TurnResult :=
  let m := markT tl ck "tts_start"
  match jsonParse (stripFence fullText) with
  | none => fallbackPath st m.1 m.2 fullText synth
  | some (Json.obj fields) => processParsed st m.1 m.2 fullText synth fields
  | some _ => abortResult st m.1 m.2 none PyErr.attributeError

/-- The run `tts_node` would perform if, on decode failure, the parse step
instead produced the spec's degraded response
`(emotion := "neutral", intensity := 0.5, message := full text)` and the turn
processed it through the normal parsed branch. Used to compare the spec's
description of the failure path against the code's actual failure path. -/
def claimedNeutralRun (st : AgentState) (tl : Timeline) (ck : List Rat)
    (fullText : Str) (synth : Json → Nat × Bool) : TurnResult :=
  let m := markT tl ck "tts_start"
  processParsed st m.1 m.2 fullText synth
    [(emotionS, Json.str neutralS), (intensityS, Json.num (mkRat 1 2)),
     (messageS, Json.str fullText)]

def happyS : Str := "happy".toList

/-- A minimal agent state: no filler manager, non-Cartesia TTS, a preset
table with only an (empty) neutral preset. -/
def stPlainFix : AgentState :=
  { lastEmotion := Json.str neutralS, filler := none, isCartesia := false,
    emotionsTable := [(neutralS, [])] }

def fillerCfgFix : List (Str × List FillerEntry) :=
  [(neutralS, [{ text := "hmm".toList }, { text := "ah".toList }]),
   (happyS, [{ text := "oh".toList }])]

/-- An agent state mid-session: the previous turn's emotion was `"happy"`,
a filler manager is attached, the TTS is Cartesia, and both presets carry
`speed`/`emotion` controls. -/
def stRichFix : AgentState :=
  { lastEmotion := Json.str happyS,
    filler := some { fillers := fillerCfgFix, currentEmotion := happyS },
    isCartesia := true,
    emotionsTable :=
      [(neutralS, [(speedS, Json.str "normal".toList), (emotionS, Json.arr [])]),
       (happyS, [(speedS, Json.str "fast".toList), (emotionS, Json.arr [])])] }

def ckFix : List Rat := [1, 2, 3, 4]

def synthOkFix : Json → Nat × Bool := fun _ => (1, true)

def synthFailFix : Json → Nat × Bool := fun _ => (1, false)

/-- The spec's scenario payload. -/
def payloadFix : Str :=
  "\x7b\"emotion\":\"happy\",\"intensity\":0.8,\"message\":\"Great to hear!\"\x7d".toList

/-- A payload wrapped in a fence whose opener has the language tag `json`. -/
def fenceJsonWrap (p : Str) : Str := fenceJsonOpen ++ ['\n'] ++ p ++ ['\n'] ++ backtick3

/-- A payload wrapped in a fence with a bare opener. -/
def fenceBareWrap (p : Str) : Str := backtick3 ++ ['\n'] ++ p ++ ['\n'] ++ backtick3

/-- A payload wrapped in a fence whose opener has the language tag `py`. -/
def fencePyWrap (p : Str) : Str := backtick3 ++ ['p', 'y', '\n'] ++ p ++ ['\n'] ++ backtick3

/-- A race in the Playing state: its single task is suspended in
`capture_frame`, `playback_task` points at it, `is_playing` is set.
Reached from the initial state by `[start, fire 0]`. -/
def sPlayFix : SchedState :=
  { tasks := [TaskStatus.capturing], current := some 0, isPlaying := true }

theorem alGet_alSet_ne {κ α : Type} [DecidableEq κ] (l : List (κ × α)) (k k' : κ)
    (v : α) (h : k' ≠ k) : alGet (alSet l k v) k' = alGet l k' := by
  induction l with
  | nil => simp [alSet, alGet, Ne.symm h]
  | cons p rest ih =>
    obtain ⟨pk, pv⟩ := p
    by_cases hpk : pk = k
    · subst hpk
      simp [alSet, alGet, Ne.symm h]
    · simp only [alSet, if_neg hpk, alGet]
      by_cases hpk' : pk = k'
      · simp [hpk']
      · simp [hpk', ih]

theorem set_emotion_fillers (m : FillerMgr) (e : Str) :
    (set_emotion m e).fillers = m.fillers := by
  unfold set_emotion
  by_cases h : (alGet m.fillers e).isSome <;> simp [h]

theorem set_emotion_keeps_key (cfg : List (Str × List FillerEntry)) (m : FillerMgr)
    (e : Str) (hf : m.fillers = cfg) (hc : (alGet cfg m.currentEmotion).isSome = true) :
    (alGet cfg (set_emotion m e).currentEmotion).isSome = true := by
  unfold set_emotion
  by_cases h : (alGet m.fillers e).isSome <;> simp [h, hc]
  rw [hf] at h
  exact h

theorem foldl_set_emotion_inv (cfg : List (Str × List FillerEntry)) (es : List Str) :
    ∀ m : FillerMgr, m.fillers = cfg → (alGet cfg m.currentEmotion).isSome = true →
      (alGet cfg ((es.foldl set_emotion m).currentEmotion)).isSome = true := by
  induction es with
  | nil => intro m _ hc; simpa using hc
  | cons e rest ih =>
    intro m hf hc
    simp only [List.foldl_cons]
    exact ih (set_emotion m e) (by rw [set_emotion_fillers, hf])
      (set_emotion_keeps_key cfg m e hf hc)

/-- C6: for every non-empty prior timeline, after `log_latency` the
timeline is empty (cleared unconditionally, even when duration blocks were
skipped). -/
theorem c6_report_clears_timeline (tl : Timeline) (h : tl ≠ []) :
    (log_latency tl).1 = [] := by
  cases tl with
  | nil => exact absurd rfl h
  | cons p rest => simp [log_latency]

theorem c6_report_clears_timeline_w :
    (log_latency [("llm_start", 5)]).1 = [] :=
  c6_report_clears_timeline [("llm_start", 5)] (by decide)

/-- C7: `get_duration` returns `0` whenever either event was never marked and
never raises (it is a total function); when both are marked it returns
`(end - start) * 1000`, which is negative when the marks are out of causal
order. -/
theorem c7_duration_total (tl : Timeline) (a b : String) :
    ((alGet tl a = none ∨ alGet tl b = none) → get_duration tl a b = 0) ∧
    (∀ ta tb, alGet tl a = some ta → alGet tl b = some tb →
      get_duration tl a b = (tb - ta) * 1000) := by
  constructor
  · intro h
    rcases h with h | h
    · simp [get_duration, h]
    · cases ha : alGet tl a <;> simp [get_duration, ha, h]
  · intro ta tb ha hb
    simp [get_duration, ha, hb]

theorem c7_duration_total_w :
    get_duration [("a", 5)] "a" "b" = 0 ∧
    get_duration [("a", 5), ("b", 3)] "a" "b" = -2000 := by
  constructor
  · exact (c7_duration_total [("a", 5)] "a" "b").1 (Or.inr rfl)
  · have h := (c7_duration_total [("a", 5), ("b", 3)] "a" "b").2 5 3 rfl rfl
    rw [h]; norm_num

/-- C9: with the mandatory `"neutral"` preset configured, the settings lookup
of `tts_node` returns the preset of a configured emotion label, and the
`"neutral"` preset for any label absent from the table. -/
theorem c9_resolve_fallback (tbl : List (Str × List (Str × Json))) (e : Str)
    (nv : List (Str × Json)) (hn : alGet tbl neutralS = some nv) :
    (∀ p, alGet tbl e = some p → lookupEmotionSettings tbl (Json.str e) = Except.ok p) ∧
    (alGet tbl e = none → lookupEmotionSettings tbl (Json.str e) = Except.ok nv) := by
  constructor
  · intro p hp
    simp [lookupEmotionSettings, hn, jsonHashKey, hp]
  · intro hp
    simp [lookupEmotionSettings, hn, jsonHashKey, hp]

theorem c9_resolve_fallback_w :
    lookupEmotionSettings [(neutralS, []), (happyS, [(speedS, Json.null)])]
      (Json.str happyS) = Except.ok [(speedS, Json.null)] ∧
    lookupEmotionSettings [(neutralS, [])] (Json.str happyS) = Except.ok [] :=
  ⟨(c9_resolve_fallback [(neutralS, []), (happyS, [(speedS, Json.null)])]
      happyS [] rfl).1 _ rfl,
   (c9_resolve_fallback [(neutralS, [])] happyS [] rfl).2 rfl⟩

/-- C10: with the mandatory `"neutral"` category configured, the manager's
`current_emotion` is always a key of the fillers catalog — it starts as
`"neutral"` and any `set_emotion` sequence preserves the invariant — and
`set_emotion` with an unconfigured label leaves the manager unchanged. -/
theorem c10_current_emotion_invariant (cfg : List (Str × List FillerEntry))
    (hn : (alGet cfg neutralS).isSome = true) :
    (∀ es : List Str,
      (alGet cfg ((es.foldl set_emotion (initFillerMgr cfg)).currentEmotion)).isSome = true) ∧
    (∀ (m : FillerMgr) (e : Str), alGet m.fillers e = none → set_emotion m e = m) := by
  constructor
  · intro es
    exact foldl_set_emotion_inv cfg es (initFillerMgr cfg) rfl hn
  · intro m e h
    simp [set_emotion, h]

theorem c10_current_emotion_invariant_w :
    (alGet [(neutralS, [({ text := "hmm".toList } : FillerEntry)])]
      (([happyS].foldl set_emotion
        (initFillerMgr [(neutralS, [{ text := "hmm".toList }])])).currentEmotion)).isSome = true ∧
    set_emotion (initFillerMgr [(neutralS, [{ text := "hmm".toList }])]) happyS =
      initFillerMgr [(neutralS, [{ text := "hmm".toList }])] :=
  ⟨(c10_current_emotion_invariant [(neutralS, [{ text := "hmm".toList }])]
      (by decide)).1 [happyS],
   (c10_current_emotion_invariant [(neutralS, [{ text := "hmm".toList }])]
      (by decide)).2 _ happyS (by decide)⟩

theorem getTask_set_ne (ts : List TaskStatus) (i j : Nat) (st : TaskStatus)
    (h : i ≠ j) : getTask (ts.set i st) j = getTask ts j := by
  unfold getTask
  rw [List.get?_set_ne st ts h]

theorem active_lt (ts : List TaskStatus) (i : Nat)
    (h : taskDone (getTask ts i) = false) : i < ts.length := by
  by_contra hl
  push_neg at hl
  unfold getTask at h
  rw [List.get?_eq_none.mpr hl] at h
  simp [taskDone] at h

theorem getTask_set_self (ts : List TaskStatus) (i : Nat) (st : TaskStatus)
    (h : i < ts.length) : getTask (ts.set i st) i = st := by
  unfold getTask
  rw [List.get?_set_eq_of_lt st h]
  rfl

theorem getTask_append (l : List TaskStatus) (x : TaskStatus) (j : Nat) :
    getTask (l ++ [x]) j =
      if j < l.length then getTask l j
      else if j = l.length then x else TaskStatus.finished := by
  unfold getTask
  by_cases hj : j < l.length
  · rw [List.get?_append hj, if_pos hj]
  · push_neg at hj
    rw [List.get?_append_right hj, if_neg (by omega)]
    by_cases he : j = l.length
    · subst he
      simp
    · rw [if_neg he]
      cases hd : j - l.length with
      | zero => omega
      | succ n => simp


theorem cancelCurrent_task0 (s : SchedState)
    (h : getTask s.tasks 0 = TaskStatus.cancelled) :
    getTask (cancelCurrent s).tasks 0 = TaskStatus.cancelled ∧
    (cancelCurrent s).tasks.length = s.tasks.length := by
  rcases hc : s.current with _ | i
  · simp only [cancelCurrent, hc]
    exact ⟨h, trivial⟩
  · by_cases hd : taskDone (getTask s.tasks i) = true
    · simp only [cancelCurrent, hc, if_pos hd]
      exact ⟨h, trivial⟩
    · simp only [cancelCurrent, hc, if_neg hd, List.length_set]
      refine ⟨?_, trivial⟩
      rcases eq_or_ne i 0 with hi | hi
      · subst hi
        rw [h] at hd
        exact absurd rfl hd
      · rw [getTask_set_ne _ _ _ _ hi]
        exact h

theorem cancelled_persists_step (s : SchedState) (op : SchedOp)
    (h : getTask s.tasks 0 = TaskStatus.cancelled) :
    getTask (schedStep s op).tasks 0 = TaskStatus.cancelled := by
  have h0 : 0 < s.tasks.length := by
    rcases hts : s.tasks with _ | ⟨a, l⟩
    · rw [hts] at h
      simp [getTask] at h
    · simp
  obtain ⟨hc, hlen⟩ := cancelCurrent_task0 s h
  cases op with
  | start =>
    simp only [schedStep, start_filler_timer]
    rw [getTask_append, if_pos (by rw [hlen]; exact h0)]
    exact hc
  | cancel =>
    simp only [schedStep]
    rcases hcur : s.current with _ | i
    · simp only [cancel_filler, hcur]
      exact h
    · by_cases hd : taskDone (getTask s.tasks i) = true
      · simp only [cancel_filler, hcur, if_pos hd]
        exact h
      · simp only [cancel_filler, hcur, if_neg hd]
        exact hc
  | fire i =>
    simp only [schedStep]
    by_cases hs : getTask s.tasks i = TaskStatus.sleeping
    · have hi : i ≠ 0 := by
        intro he
        rw [he, h] at hs
        exact TaskStatus.noConfusion hs
      by_cases hp : s.isPlaying = true
      · rw [if_pos hs, if_pos hp]
        show getTask (s.tasks.set i TaskStatus.finished) 0 = TaskStatus.cancelled
        rw [getTask_set_ne _ _ _ _ hi]
        exact h
      · rw [if_pos hs, if_neg hp]
        show getTask (s.tasks.set i TaskStatus.capturing) 0 = TaskStatus.cancelled
        rw [getTask_set_ne _ _ _ _ hi]
        exact h
    · rw [if_neg hs]
      exact h
  | fireFail i =>
    simp only [schedStep]
    by_cases hs : getTask s.tasks i = TaskStatus.sleeping
    · have hi : i ≠ 0 := by
        intro he
        rw [he, h] at hs
        exact TaskStatus.noConfusion hs
      rw [if_pos hs]
      show getTask (s.tasks.set i TaskStatus.finished) 0 = TaskStatus.cancelled
      rw [getTask_set_ne _ _ _ _ hi]
      exact h
    · rw [if_neg hs]
      exact h
  | capDone i =>
    simp only [schedStep]
    by_cases hs : getTask s.tasks i = TaskStatus.capturing
    · have hi : i ≠ 0 := by
        intro he
        rw [he, h] at hs
        exact TaskStatus.noConfusion hs
      rw [if_pos hs]
      show getTask (s.tasks.set i TaskStatus.finished) 0 = TaskStatus.cancelled
      rw [getTask_set_ne _ _ _ _ hi]
      exact h
    · rw [if_neg hs]
      exact h

theorem cancelled_persists_run (s : SchedState)
    (h : getTask s.tasks 0 = TaskStatus.cancelled) :
    ∀ ops : List SchedOp, getTask ((ops.foldl schedStep s).tasks) 0 = TaskStatus.cancelled := by
  intro ops
  induction ops generalizing s with
  | nil => exact h
  | cons op rest ih =>
    simp only [List.foldl_cons]
    exact ih (schedStep s op) (cancelled_persists_step s op h)

/-- C1: against the claim, `cancel_filler` called on a race that has entered
Playing (its task suspended in `capture_frame`) does cancel the in-flight
task: the clip emission is aborted, and under no further schedule does that
task ever finish its playback. The Playing state used is reachable, via
`[start, fire 0]`. -/
theorem c1_cancel_interrupts_playing :
    schedRun [SchedOp.start, SchedOp.fire 0] = sPlayFix ∧
    cancel_filler sPlayFix =
      { tasks := [TaskStatus.cancelled], current := none, isPlaying := false } ∧
    ∀ ops : List SchedOp,
      getTask ((ops.foldl schedStep (cancel_filler sPlayFix)).tasks) 0 = TaskStatus.cancelled := by
  refine ⟨by decide, by decide, ?_⟩
  exact cancelled_persists_run _ (by decide)

theorem bool_ne_true (b : Bool) (h : ¬(b = true)) : b = false := by
  cases b
  · rfl
  · exact absurd rfl h

theorem schedStep_preserves_inv (s : SchedState) (op : SchedOp)
    (h : ∀ j, raceActive s j = true → s.current = some j) :
    ∀ j, raceActive (schedStep s op) j = true → (schedStep s op).current = some j := by
  have hActive : ∀ j, taskDone (getTask s.tasks j) = false → s.current = some j := by
    intro j hj
    exact h j (by simp [raceActive, hj])
  cases op with
  | start =>
    intro j hj
    simp only [schedStep, start_filler_timer] at hj ⊢
    have hj' : taskDone (getTask ((cancelCurrent s).tasks ++ [TaskStatus.sleeping]) j) = false := by
      simpa [raceActive] using hj
    rw [getTask_append] at hj'
    by_cases hlt : j < (cancelCurrent s).tasks.length
    · rw [if_pos hlt] at hj'
      exfalso
      rcases hcur : s.current with _ | i
      · simp only [cancelCurrent, hcur] at hj'
        have hcj := hActive j hj'
        rw [hcur] at hcj
        exact Option.noConfusion hcj
      · by_cases hd : taskDone (getTask s.tasks i) = true
        · simp only [cancelCurrent, hcur, if_pos hd] at hj'
          have hcj := hActive j hj'
          rw [hcur] at hcj
          injection hcj with he
          subst he
          rw [hj'] at hd
          exact Bool.noConfusion hd
        · simp only [cancelCurrent, hcur, if_neg hd] at hj'
          rcases eq_or_ne j i with he | hne
          · subst he
            have hltj : j < s.tasks.length := active_lt s.tasks j (bool_ne_true _ hd)
            rw [getTask_set_self _ _ _ hltj] at hj'
            exact absurd hj' (by simp [taskDone])
          · rw [getTask_set_ne _ _ _ _ (Ne.symm hne)] at hj'
            have hcj := hActive j hj'
            rw [hcur] at hcj
            injection hcj with he
            exact hne he.symm
    · rw [if_neg hlt] at hj'
      by_cases he : j = (cancelCurrent s).tasks.length
      · rw [he]
      · rw [if_neg he] at hj'
        exact absurd hj' (by simp [taskDone])
  | cancel =>
    intro j hj
    simp only [schedStep] at hj ⊢
    rcases hcur : s.current with _ | i
    · simp only [cancel_filler, hcur] at hj ⊢
      exact hcur ▸ h j hj
    · by_cases hd : taskDone (getTask s.tasks i) = true
      · simp only [cancel_filler, hcur, if_pos hd] at hj ⊢
        exact hcur ▸ h j hj
      · simp only [cancel_filler, hcur, if_neg hd] at hj ⊢
        exfalso
        have hj' : taskDone (getTask (cancelCurrent s).tasks j) = false := by
          simpa [raceActive] using hj
        simp only [cancelCurrent, hcur, if_neg hd] at hj'
        rcases eq_or_ne j i with he | hne
        · subst he
          have hltj : j < s.tasks.length := active_lt s.tasks j (bool_ne_true _ hd)
          rw [getTask_set_self _ _ _ hltj] at hj'
          exact absurd hj' (by simp [taskDone])
        · rw [getTask_set_ne _ _ _ _ (Ne.symm hne)] at hj'
          have hcj := hActive j hj'
          rw [hcur] at hcj
          injection hcj with he
          exact hne he.symm
  | fire i =>
    intro j hj
    simp only [schedStep] at hj ⊢
    by_cases hs : getTask s.tasks i = TaskStatus.sleeping
    · by_cases hp : s.isPlaying = true
      · rw [if_pos hs, if_pos hp] at hj ⊢
        have hj' : taskDone (getTask (s.tasks.set i TaskStatus.finished) j) = false := by
          simpa [raceActive] using hj
        show s.current = some j
        rcases eq_or_ne j i with he | hne
        · subst he
          rw [getTask_set_self _ _ _ (active_lt s.tasks j (by rw [hs]; rfl))] at hj'
          exact absurd hj' (by simp [taskDone])
        · rw [getTask_set_ne _ _ _ _ (Ne.symm hne)] at hj'
          exact hActive j hj'
      · rw [if_pos hs, if_neg hp] at hj ⊢
        have hj' : taskDone (getTask (s.tasks.set i TaskStatus.capturing) j) = false := by
          simpa [raceActive] using hj
        show s.current = some j
        rcases eq_or_ne j i with he | hne
        · subst he
          exact hActive j (by rw [hs]; rfl)
        · rw [getTask_set_ne _ _ _ _ (Ne.symm hne)] at hj'
          exact hActive j hj'
    · rw [if_neg hs] at hj ⊢
      exact h j hj
  | fireFail i =>
    intro j hj
    simp only [schedStep] at hj ⊢
    by_cases hs : getTask s.tasks i = TaskStatus.sleeping
    · rw [if_pos hs] at hj ⊢
      have hj' : taskDone (getTask (s.tasks.set i TaskStatus.finished) j) = false := by
        simpa [raceActive] using hj
      show s.current = some j
      rcases eq_or_ne j i with he | hne
      · subst he
        rw [getTask_set_self _ _ _ (active_lt s.tasks j (by rw [hs]; rfl))] at hj'
        exact absurd hj' (by simp [taskDone])
      · rw [getTask_set_ne _ _ _ _ (Ne.symm hne)] at hj'
        exact hActive j hj'
    · rw [if_neg hs] at hj ⊢
      exact h j hj
  | capDone i =>
    intro j hj
    simp only [schedStep] at hj ⊢
    by_cases hs : getTask s.tasks i = TaskStatus.capturing
    · rw [if_pos hs] at hj ⊢
      have hj' : taskDone (getTask (s.tasks.set i TaskStatus.finished) j) = false := by
        simpa [raceActive] using hj
      show s.current = some j
      rcases eq_or_ne j i with he | hne
      · subst he
        rw [getTask_set_self _ _ _ (active_lt s.tasks j (by rw [hs]; rfl))] at hj'
        exact absurd hj' (by simp [taskDone])
      · rw [getTask_set_ne _ _ _ _ (Ne.symm hne)] at hj'
        exact hActive j hj'
    · rw [if_neg hs] at hj ⊢
      exact h j hj

theorem schedRun_inv (ops : List SchedOp) :
    ∀ j, raceActive (schedRun ops) j = true → (schedRun ops).current = some j := by
  unfold schedRun
  suffices hgen : ∀ (l : List SchedOp) (s : SchedState),
      (∀ j, raceActive s j = true → s.current = some j) →
      ∀ j, raceActive (l.foldl schedStep s) j = true → (l.foldl schedStep s).current = some j by
    refine hgen ops initSched ?_
    intro j hj
    simp [raceActive, initSched, getTask, taskDone] at hj
  intro l
  induction l with
  | nil => intro s hs; exact hs
  | cons op rest ih =>
    intro s hs
    simp only [List.foldl_cons]
    exact ih (schedStep s op) (schedStep_preserves_inv s op hs)

/-- C8: for every sequence of start/cancel/timer events, no two distinct
races are simultaneously Armed or Playing (at most one active race per
manager), and `start_filler_timer` invoked while the tracked race is still
Armed or Playing cancels that race first. -/
theorem c8_at_most_one_active (ops : List SchedOp) :
    (∀ j k, raceActive (schedRun ops) j = true → raceActive (schedRun ops) k = true → j = k) ∧
    (∀ i, (schedRun ops).current = some i →
      taskDone (getTask (schedRun ops).tasks i) = false →
      getTask (start_filler_timer (schedRun ops)).tasks i = TaskStatus.cancelled) := by
  constructor
  · intro j k hj hk
    have h1 := schedRun_inv ops j hj
    have h2 := schedRun_inv ops k hk
    rw [h1] at h2
    injection h2
  · intro i hcur hact
    show getTask ((cancelCurrent (schedRun ops)).tasks ++ [TaskStatus.sleeping]) i = TaskStatus.cancelled
    have hlt : i < (schedRun ops).tasks.length := active_lt _ _ hact
    have hnd : ¬(taskDone (getTask (schedRun ops).tasks i) = true) := by
      rw [hact]
      exact Bool.noConfusion
    simp only [cancelCurrent, hcur, if_neg hnd]
    rw [getTask_append, List.length_set, if_pos hlt]
    exact getTask_set_self _ _ _ hlt

theorem c8_at_most_one_active_w :
    (0 : Nat) = 0 ∧
    getTask (start_filler_timer (schedRun [SchedOp.start])).tasks 0 = TaskStatus.cancelled :=
  ⟨(c8_at_most_one_active [SchedOp.start]).1 0 0 (by decide) (by decide),
   (c8_at_most_one_active [SchedOp.start]).2 0 (by decide) (by decide)⟩

/-- C5: evaluating `get_random_filler_path` at the failing input. With the
catalog containing `neutral` (`hmm`, `ah`) and `happy` (`oh`), an
unrecognized hint `"furious"` falls back to the neutral category's entry
list, but the returned file name is built from the unrecognized label:
`furious_1_hmm.wav`, which is not an asset file of any catalog category
(so the later `wave.open` fails and no filler plays). A recognized hint
(`"happy"`) yields a genuine asset of its own category. -/
theorem c5_unrecognized_hint_wrong_path :
    get_random_filler_path (initFillerMgr fillerCfgFix) (some "furious".toList) 1 =
      some "furious_1_hmm.wav".toList ∧
    fillerCfgFix.all
      (fun cat => !((categoryAssetNames cat.1 cat.2).contains "furious_1_hmm.wav".toList)) = true ∧
    get_random_filler_path (initFillerMgr fillerCfgFix) (some happyS) 1 =
      some "happy_1_oh.wav".toList ∧
    (categoryAssetNames happyS [{ text := "oh".toList }]).contains "happy_1_oh.wav".toList = true := by
  refine ⟨by decide, by decide, by decide, by decide⟩

theorem runSynthesis_fail (st : AgentState) (tl : Timeline) (ck : List Rat)
    (vu : Option (Json × Json)) (text : Json) (synth : Json → Nat × Bool)
    (hf : (synth text).2 = false) :
    (runSynthesis st tl ck vu text synth).reportRan = false ∧
    (runSynthesis st tl ck vu text synth).report = none ∧
    (runSynthesis st tl ck vu text synth).err = some PyErr.synthError ∧
    ∀ k : String, k ≠ "tts_first_chunk" →
      alGet (runSynthesis st tl ck vu text synth).tracker k = alGet tl k := by
  simp only [runSynthesis, hf, Bool.false_eq_true, if_false]
  refine ⟨by trivial, by trivial, by trivial, ?_⟩
  intro k hk
  by_cases hn : 1 ≤ (synth text).1
  · simp only [if_pos hn, markT]
    exact alGet_alSet_ne tl "tts_first_chunk" k (ck.headD 0) hk
  · simp only [if_neg hn]

theorem afterEmotion_fail (st : AgentState) (tl : Timeline) (ck : List Rat)
    (fullText : Str) (message emotion : Json) (synth : Json → Nat × Bool)
    (hfail : ∀ m, (synth m).2 = false) :
    (afterEmotion st tl ck fullText message emotion synth).reportRan = false ∧
    (afterEmotion st tl ck fullText message emotion synth).report = none ∧
    (afterEmotion st tl ck fullText message emotion synth).err.isSome = true ∧
    ∀ k : String, k ≠ "tts_first_chunk" →
      alGet (afterEmotion st tl ck fullText message emotion synth).tracker k = alGet tl k := by
  rcases hle : lookupEmotionSettings st.emotionsTable emotion with er | settings
  · cases er with
    | keyError =>
      simp only [afterEmotion, hle, fallbackPath]
      obtain ⟨h1, h2, h3, h4⟩ :=
        runSynthesis_fail st tl ck none (Json.str fullText) synth (hfail _)
      exact ⟨h1, h2, by rw [h3]; rfl, h4⟩
    | typeError =>
      simp only [afterEmotion, hle, abortResult]
      exact ⟨by trivial, by trivial, by trivial, by intros; trivial⟩
    | attributeError =>
      simp only [afterEmotion, hle, abortResult]
      exact ⟨by trivial, by trivial, by trivial, by intros; trivial⟩
    | synthError =>
      simp only [afterEmotion, hle, abortResult]
      exact ⟨by trivial, by trivial, by trivial, by intros; trivial⟩
  · by_cases hc : st.isCartesia = true
    · rcases hbv : buildVoiceControls settings with er | vc
      · cases er with
        | keyError =>
          simp only [afterEmotion, hle, if_pos hc, hbv, fallbackPath]
          obtain ⟨h1, h2, h3, h4⟩ :=
            runSynthesis_fail st tl ck none (Json.str fullText) synth (hfail _)
          exact ⟨h1, h2, by rw [h3]; rfl, h4⟩
        | typeError =>
          simp only [afterEmotion, hle, if_pos hc, hbv, abortResult]
          exact ⟨by trivial, by trivial, by trivial, by intros; trivial⟩
        | attributeError =>
          simp only [afterEmotion, hle, if_pos hc, hbv, abortResult]
          exact ⟨by trivial, by trivial, by trivial, by intros; trivial⟩
        | synthError =>
          simp only [afterEmotion, hle, if_pos hc, hbv, abortResult]
          exact ⟨by trivial, by trivial, by trivial, by intros; trivial⟩
      · simp only [afterEmotion, hle, if_pos hc, hbv]
        obtain ⟨h1, h2, h3, h4⟩ :=
          runSynthesis_fail st tl ck (some vc) message synth (hfail _)
        exact ⟨h1, h2, by rw [h3]; rfl, h4⟩
    · simp only [afterEmotion, hle, if_neg hc]
      obtain ⟨h1, h2, h3, h4⟩ :=
        runSynthesis_fail st tl ck none message synth (hfail _)
      exact ⟨h1, h2, by rw [h3]; rfl, h4⟩

theorem processParsed_fail (st0 : AgentState) (tl : Timeline) (ck : List Rat)
    (fullText : Str) (synth : Json → Nat × Bool) (fields : List (Str × Json))
    (hfail : ∀ m, (synth m).2 = false) :
    (processParsed st0 tl ck fullText synth fields).reportRan = false ∧
    (processParsed st0 tl ck fullText synth fields).report = none ∧
    (processParsed st0 tl ck fullText synth fields).err.isSome = true ∧
    ∀ k : String, k ≠ "tts_first_chunk" →
      alGet (processParsed st0 tl ck fullText synth fields).tracker k = alGet tl k := by
  rcases hfm : st0.filler with _ | fm
  · simp only [processParsed, hfm]
    exact afterEmotion_fail _ tl ck fullText _ _ synth hfail
  · rcases hse : set_emotionJ fm ((objGet fields emotionS).getD (Json.str neutralS)) with er | fm'
    · simp only [processParsed, hfm, hse, abortResult]
      exact ⟨by trivial, by trivial, by trivial, by intros; trivial⟩
    · simp only [processParsed, hfm, hse]
      exact afterEmotion_fail _ tl ck fullText _ _ synth hfail

/-- C2 (amended): whenever the wrapped synthesis stream rejects the request
or errors after it starts, `tts_node`'s generator raises without ever
reaching `log_latency`: no latency report is produced for the turn, and the
recorded marks are merely left in the shared timeline (no mark besides
`tts_start`/`tts_first_chunk` is touched). -/
theorem c2_report_skipped_on_synth_error (st : AgentState) (tl : Timeline)
    (ck : List Rat) (fullText : Str) (synth : Json → Nat × Bool)
    (hfail : ∀ m, (synth m).2 = false) :
    (tts_nodeM st tl ck fullText synth).reportRan = false ∧
    (tts_nodeM st tl ck fullText synth).report = none ∧
    (tts_nodeM st tl ck fullText synth).err.isSome = true ∧
    ∀ k : String, k ≠ "tts_start" → k ≠ "tts_first_chunk" →
      alGet (tts_nodeM st tl ck fullText synth).tracker k = alGet tl k := by
  have hbase : ∀ k : String, k ≠ "tts_start" →
      alGet (markT tl ck "tts_start").1 k = alGet tl k := by
    intro k hk
    simp only [markT]
    exact alGet_alSet_ne tl "tts_start" k (ck.headD 0) hk
  rcases hp : jsonParse (stripFence fullText) with _ | j
  · simp only [tts_nodeM, hp, fallbackPath]
    obtain ⟨h1, h2, h3, h4⟩ := runSynthesis_fail st (markT tl ck "tts_start").1
      (markT tl ck "tts_start").2 none (Json.str fullText) synth (hfail _)
    refine ⟨h1, h2, by rw [h3]; rfl, ?_⟩
    intro k hk1 hk2
    rw [h4 k hk2]
    exact hbase k hk1
  · cases j with
    | obj fields =>
      simp only [tts_nodeM, hp]
      obtain ⟨h1, h2, h3, h4⟩ := processParsed_fail st (markT tl ck "tts_start").1
        (markT tl ck "tts_start").2 fullText synth fields hfail
      refine ⟨h1, h2, h3, ?_⟩
      intro k hk1 hk2
      rw [h4 k hk2]
      exact hbase k hk1
    | null =>
      simp only [tts_nodeM, hp, abortResult]
      exact ⟨by trivial, by trivial, by trivial, fun k hk1 _ => hbase k hk1⟩
    | bool b =>
      simp only [tts_nodeM, hp, abortResult]
      exact ⟨by trivial, by trivial, by trivial, fun k hk1 _ => hbase k hk1⟩
    | num q =>
      simp only [tts_nodeM, hp, abortResult]
      exact ⟨by trivial, by trivial, by trivial, fun k hk1 _ => hbase k hk1⟩
    | str s =>
      simp only [tts_nodeM, hp, abortResult]
      exact ⟨by trivial, by trivial, by trivial, fun k hk1 _ => hbase k hk1⟩
    | arr xs =>
      simp only [tts_nodeM, hp, abortResult]
      exact ⟨by trivial, by trivial, by trivial, fun k hk1 _ => hbase k hk1⟩

theorem c2_report_skipped_on_synth_error_w :
    (tts_nodeM stPlainFix [("llm_start", 5)] ckFix "hi".toList synthFailFix).reportRan = false ∧
    alGet (tts_nodeM stPlainFix [("llm_start", 5)] ckFix "hi".toList synthFailFix).tracker
      "llm_start" = some 5 := by
  refine ⟨(c2_report_skipped_on_synth_error stPlainFix [("llm_start", 5)] ckFix
    "hi".toList synthFailFix (fun m => rfl)).1, ?_⟩
  rw [(c2_report_skipped_on_synth_error stPlainFix [("llm_start", 5)] ckFix
    "hi".toList synthFailFix (fun m => rfl)).2.2.2 "llm_start" (by decide) (by decide)]
  rfl

/-- C2 (counterexample to the claim as stated): a concrete turn whose
synthesis stream errors after its first chunk (`synthFailFix` yields one
chunk then fails). The escaping error is the synthesis error, yet
`log_latency` never ran and no report was emitted — the claim says the
coordinator still runs `report()` for such turns. -/
theorem c2_cex :
    (tts_nodeM stPlainFix [] ckFix "hi".toList synthFailFix).err = some PyErr.synthError ∧
    (tts_nodeM stPlainFix [] ckFix "hi".toList synthFailFix).chunks = 1 ∧
    (tts_nodeM stPlainFix [] ckFix "hi".toList synthFailFix).reportRan = false ∧
    (tts_nodeM stPlainFix [] ckFix "hi".toList synthFailFix).report = none :=
  ⟨rfl, rfl, rfl, rfl⟩

/-- C3 (amended): when the structured decode of the (fence-stripped) text
fails, the turn degrades non-fatally through the `except` branch: the text
handed to synthesis is the original full input unchanged and, when synthesis
succeeds, the turn completes with a latency report; but no neutral
emotion/intensity is materialized — the agent state (last emotion, filler
manager) is left untouched and no voice-control update is applied, so the
previous turn's voice settings remain in effect. -/
theorem c3_decode_failure_fallback (st : AgentState) (tl : Timeline) (ck : List Rat)
    (fullText : Str) (synth : Json → Nat × Bool)
    (hp : jsonParse (stripFence fullText) = none) :
    (tts_nodeM st tl ck fullText synth).spoken = some (Json.str fullText) ∧
    (tts_nodeM st tl ck fullText synth).state = st ∧
    (tts_nodeM st tl ck fullText synth).voiceUpdate = none ∧
    (tts_nodeM st tl ck fullText synth).err =
      (if (synth (Json.str fullText)).2 then none else some PyErr.synthError) ∧
    ((synth (Json.str fullText)).2 = true → (tts_nodeM st tl ck fullText synth).reportRan = true) := by
  simp only [tts_nodeM, hp, fallbackPath, runSynthesis]
  by_cases hok : (synth (Json.str fullText)).2 = true
  · simp only [hok, if_true]
    exact ⟨by trivial, by trivial, by trivial, by trivial, fun _ => by trivial⟩
  · simp only [bool_ne_true _ hok, Bool.false_eq_true, if_false]
    exact ⟨by trivial, by trivial, by trivial, by trivial, by intros; trivial⟩

theorem c3_decode_failure_fallback_w :
    (tts_nodeM stRichFix [] ckFix "hello".toList synthOkFix).spoken =
      some (Json.str "hello".toList) ∧
    (tts_nodeM stRichFix [] ckFix "hello".toList synthOkFix).reportRan = true :=
  ⟨(c3_decode_failure_fallback stRichFix [] ckFix "hello".toList synthOkFix rfl).1,
   (c3_decode_failure_fallback stRichFix [] ckFix "hello".toList synthOkFix rfl).2.2.2.2 rfl⟩

/-- C3 (counterexample to the claim as stated): `"hello"` fails the
structured decode, yet the turn does not behave as if the parser had produced
`(emotion := "neutral", intensity := 0.5, message := "hello")`: processing
that response through the turn's own parsed branch would apply a
voice-control update (and set the last emotion to neutral), while the actual
failure path applies none and keeps the previous `"happy"` state. -/
theorem c3_cex :
    jsonParse (stripFence "hello".toList) = none ∧
    tts_nodeM stRichFix [] ckFix "hello".toList synthOkFix ≠
      claimedNeutralRun stRichFix [] ckFix "hello".toList synthOkFix :=
  ⟨rfl, fun h => Bool.noConfusion
    (show false = true from congrArg (fun r => r.voiceUpdate.isSome) h)⟩

theorem dropWhile_head_nonspace (l : Str)
    (h : l.head?.all (fun c => !pyIsSpace c) = true) :
    l.dropWhile pyIsSpace = l := by
  cases l with
  | nil => rfl
  | cons c t =>
    have hc : pyIsSpace c = false := by simpa using h
    rw [List.dropWhile_cons, hc]
    simp

theorem pyStrip_eq_self (l : Str)
    (hh : l.head?.all (fun c => !pyIsSpace c) = true)
    (hl : l.getLast?.all (fun c => !pyIsSpace c) = true) :
    pyStrip l = l := by
  unfold pyStrip pyRStrip pyLStrip
  rw [dropWhile_head_nonspace l.reverse (by rw [List.head?_reverse]; exact hl)]
  rw [List.reverse_reverse]
  exact dropWhile_head_nonspace l hh

theorem pyStrip_newline_wrap (p : Str)
    (hh : p.head?.all (fun c => !pyIsSpace c) = true)
    (hl : p.getLast?.all (fun c => !pyIsSpace c) = true) :
    pyStrip ('\n' :: (p ++ ['\n'])) = p := by
  unfold pyStrip pyRStrip pyLStrip
  have h1 : ('\n' :: (p ++ ['\n'])).reverse = '\n' :: (p.reverse ++ ['\n']) := by
    simp
  rw [h1, List.dropWhile_cons, if_pos (show pyIsSpace '\n' = true by decide)]
  cases hp : p.reverse with
  | nil =>
    have hpn : p = [] := by simpa using congrArg List.reverse hp
    subst hpn
    decide
  | cons c t =>
    have hc : pyIsSpace c = false := by
      have hx := hl
      rw [← List.head?_reverse, hp] at hx
      simpa using hx
    have hpp : p = t.reverse ++ [c] := by
      have hx := congrArg List.reverse hp
      simpa using hx
    rw [List.cons_append, List.dropWhile_cons, hc]
    simp only [Bool.false_eq_true, if_false]
    have h2 : (c :: (t ++ ['\n'])).reverse = '\n' :: p := by
      rw [hpp]
      simp
    rw [h2, List.dropWhile_cons, if_pos (show pyIsSpace '\n' = true by decide)]
    exact dropWhile_head_nonspace p hh

theorem lStartsWith_append (a b s : Str) (h : lStartsWith (a ++ b) s = true) :
    lStartsWith a s = true := by
  induction a generalizing s with
  | nil => rfl
  | cons x xs ih =>
    cases s with
    | nil => exact absurd h (by simp [lStartsWith])
    | cons c cs =>
      rw [List.cons_append] at h
      unfold lStartsWith at h ⊢
      by_cases hx : x = c
      · rw [if_pos hx] at h ⊢
        exact ih cs h
      · rw [if_neg hx] at h
        exact absurd h (by simp)

theorem stripFence_tail_newline (p : Str)
    (hh : p.head?.all (fun c => !pyIsSpace c) = true)
    (hl : p.getLast?.all (fun c => !pyIsSpace c) = true) :
    pyStrip
      (if lEndsWith backtick3 ('\n' :: (p ++ ['\n', '`', '`', '`'])) then
        lDropLast 3 ('\n' :: (p ++ ['\n', '`', '`', '`']))
      else '\n' :: (p ++ ['\n', '`', '`', '`'])) = p := by
  have hrev : ('\n' :: (p ++ ['\n', '`', '`', '`'])).reverse =
      '`' :: '`' :: '`' :: '\n' :: (p.reverse ++ ['\n']) := by
    simp
  have hE : lEndsWith backtick3 ('\n' :: (p ++ ['\n', '`', '`', '`'])) = true := by
    unfold lEndsWith
    rw [hrev]
    rfl
  rw [if_pos hE]
  have hD : lDropLast 3 ('\n' :: (p ++ ['\n', '`', '`', '`'])) = '\n' :: (p ++ ['\n']) := by
    unfold lDropLast
    rw [hrev]
    simp [List.drop]
  rw [hD]
  exact pyStrip_newline_wrap p hh hl

theorem stripFence_fenceJson (p : Str)
    (hh : p.head?.all (fun c => !pyIsSpace c) = true)
    (hl : p.getLast?.all (fun c => !pyIsSpace c) = true) :
    stripFence (fenceJsonWrap p) = p := by
  have h0 : fenceJsonWrap p =
      '`' :: '`' :: '`' :: 'j' :: 's' :: 'o' :: 'n' :: '\n' :: (p ++ ['\n', '`', '`', '`']) := by
    simp [fenceJsonWrap, fenceJsonOpen, backtick3]
  rw [h0]
  simp only [stripFence]
  have hs0 : pyStrip ('`' :: '`' :: '`' :: 'j' :: 's' :: 'o' :: 'n' :: '\n' ::
      (p ++ ['\n', '`', '`', '`'])) =
      '`' :: '`' :: '`' :: 'j' :: 's' :: 'o' :: 'n' :: '\n' :: (p ++ ['\n', '`', '`', '`']) := by
    refine pyStrip_eq_self _ (by simp [show pyIsSpace '`' = false by decide]) ?_
    rw [← List.head?_reverse]
    simp [pyIsSpace]
  rw [hs0]
  rw [if_pos (show lStartsWith fenceJsonOpen ('`' :: '`' :: '`' :: 'j' :: 's' :: 'o' :: 'n' ::
    '\n' :: (p ++ ['\n', '`', '`', '`'])) = true from rfl)]
  have hd7 : lDropHead 7 ('`' :: '`' :: '`' :: 'j' :: 's' :: 'o' :: 'n' :: '\n' ::
      (p ++ ['\n', '`', '`', '`'])) = '\n' :: (p ++ ['\n', '`', '`', '`']) := rfl
  rw [hd7]
  rw [if_neg (show ¬(lStartsWith backtick3 ('\n' :: (p ++ ['\n', '`', '`', '`'])) = true) from
    by intro hx; exact Bool.noConfusion hx)]
  exact stripFence_tail_newline p hh hl

theorem stripFence_fenceBare (p : Str)
    (hh : p.head?.all (fun c => !pyIsSpace c) = true)
    (hl : p.getLast?.all (fun c => !pyIsSpace c) = true) :
    stripFence (fenceBareWrap p) = p := by
  have h0 : fenceBareWrap p =
      '`' :: '`' :: '`' :: '\n' :: (p ++ ['\n', '`', '`', '`']) := by
    simp [fenceBareWrap, backtick3]
  rw [h0]
  simp only [stripFence]
  have hs0 : pyStrip ('`' :: '`' :: '`' :: '\n' :: (p ++ ['\n', '`', '`', '`'])) =
      '`' :: '`' :: '`' :: '\n' :: (p ++ ['\n', '`', '`', '`']) := by
    refine pyStrip_eq_self _ (by simp [show pyIsSpace '`' = false by decide]) ?_
    rw [← List.head?_reverse]
    simp [pyIsSpace]
  rw [hs0]
  rw [if_neg (show ¬(lStartsWith fenceJsonOpen ('`' :: '`' :: '`' :: '\n' ::
    (p ++ ['\n', '`', '`', '`'])) = true) from by intro hx; exact Bool.noConfusion hx)]
  rw [if_pos (show lStartsWith backtick3 ('`' :: '`' :: '`' :: '\n' ::
    (p ++ ['\n', '`', '`', '`'])) = true from rfl)]
  have hd3 : lDropHead 3 ('`' :: '`' :: '`' :: '\n' :: (p ++ ['\n', '`', '`', '`'])) =
      '\n' :: (p ++ ['\n', '`', '`', '`']) := rfl
  rw [hd3]
  exact stripFence_tail_newline p hh hl

theorem stripFence_plain (p : Str)
    (hh : p.head?.all (fun c => !pyIsSpace c) = true)
    (hl : p.getLast?.all (fun c => !pyIsSpace c) = true)
    (hb : lStartsWith backtick3 p = false)
    (he : lEndsWith backtick3 p = false) :
    stripFence p = p := by
  simp only [stripFence]
  rw [pyStrip_eq_self p hh hl]
  have hfj : lStartsWith fenceJsonOpen p = false := by
    by_cases hx : lStartsWith fenceJsonOpen p = true
    · have hx3 : lStartsWith backtick3 p = true :=
        lStartsWith_append backtick3 ['j', 's', 'o', 'n'] p hx
      rw [hb] at hx3
      exact Bool.noConfusion hx3
    · exact bool_ne_true _ hx
  rw [hfj]
  simp only [Bool.false_eq_true, if_false]
  rw [hb]
  simp only [Bool.false_eq_true, if_false]
  rw [he]
  simp only [Bool.false_eq_true, if_false]
  exact pyStrip_eq_self p hh hl

/-- C4 (amended): the fence stripping recovers a well-formed
`{emotion, intensity, message}` payload only for a fence opener with the
exact `json` language tag or with no tag at all (and for unfenced payloads);
the three fields are then recovered exactly. -/
theorem c4_fenced_payload_recovery (p : Str) (fields : List (Str × Json))
    (e i m : Json)
    (hh : p.head?.all (fun c => !pyIsSpace c) = true)
    (hl : p.getLast?.all (fun c => !pyIsSpace c) = true)
    (hb : lStartsWith backtick3 p = false)
    (he : lEndsWith backtick3 p = false)
    (hp : jsonParse p = some (Json.obj fields))
    (hE : objGet fields emotionS = some e)
    (hI : objGet fields intensityS = some i)
    (hM : objGet fields messageS = some m) :
    parseEmotionResponse (fenceJsonWrap p) = some (e, i, m) ∧
    parseEmotionResponse (fenceBareWrap p) = some (e, i, m) ∧
    parseEmotionResponse p = some (e, i, m) := by
  refine ⟨?_, ?_, ?_⟩
  · unfold parseEmotionResponse
    rw [stripFence_fenceJson p hh hl, hp]
    simp [hE, hI, hM]
  · unfold parseEmotionResponse
    rw [stripFence_fenceBare p hh hl, hp]
    simp [hE, hI, hM]
  · unfold parseEmotionResponse
    rw [stripFence_plain p hh hl hb he, hp]
    simp [hE, hI, hM]

theorem c4_fenced_payload_recovery_w :
    parseEmotionResponse (fenceJsonWrap payloadFix) =
      some (Json.str "happy".toList, Json.num (mkRat 4 5), Json.str "Great to hear!".toList) ∧
    parseEmotionResponse (fenceBareWrap payloadFix) =
      some (Json.str "happy".toList, Json.num (mkRat 4 5), Json.str "Great to hear!".toList) ∧
    parseEmotionResponse payloadFix =
      some (Json.str "happy".toList, Json.num (mkRat 4 5), Json.str "Great to hear!".toList) :=
  c4_fenced_payload_recovery payloadFix
    [("emotion".toList, Json.str "happy".toList),
     ("intensity".toList, Json.num (mkRat 4 5)),
     ("message".toList, Json.str "Great to hear!".toList)]
    (Json.str "happy".toList) (Json.num (mkRat 4 5)) (Json.str "Great to hear!".toList)
    (by decide) (by decide) (by decide) (by decide) rfl rfl rfl rfl

/-- C4 (counterexample to the claim as stated): the spec's scenario payload
is well-formed (it decodes to the three-field object), yet wrapped in a fence
whose opener carries the language tag `py` the parser does not recover the
fields: only the three backticks are stripped, `py` is left in front of the
payload, the decode fails, and the turn falls back (`none` = the
decode-and-default step is never completed). -/
theorem c4_cex :
    jsonParse payloadFix =
      some (Json.obj [("emotion".toList, Json.str "happy".toList),
                      ("intensity".toList, Json.num (mkRat 4 5)),
                      ("message".toList, Json.str "Great to hear!".toList)]) ∧
    parseEmotionResponse (fencePyWrap payloadFix) = none :=
  ⟨rfl, rfl⟩
